import Mathlib

/-
Verification development for the lazy, memoized, deduplicating computation
graph of `src/engine/schemas/data_broker.py` (classes `DataTransformerBroker`
and `DataNode`).

Embedding conventions:
* Node and broker objects live in arenas (`List DataNode`, `List BrokerSt`)
  addressed by list indices; Python attribute mutation becomes `List.set`.
* `datetime` timestamps are modelled as `Nat` (seconds); `datetime.max` is the
  constant `datetimeMax`.  The snapshot filename format `%Y-%m-%d_%H-%M-%S` is
  second-precision and is parsed back by `load_model`, so the format/parse
  round trip is the identity on these timestamps.
* Time-indexed tables (`pandas.DataFrame`) are modelled as `Tbl`, a list of
  (timestamp, value) rows; `pd.concat` is list append, date truncation is
  `List.filter`.
* External collaborators (raw candles, transformer/model capabilities,
  session filter) are supplied by an `Env` of pure functions.
* Fallible calls return the mutated state together with an error option /
  `Except`; a raised Python exception leaves mutations made before the raise
  visible, exactly as attribute mutation does in the source.
* General recursion over parent links and optimizer layers takes an explicit
  fuel argument; fuel exhaustion yields `none`, which never occurs on the
  well-formed graphs the theorems quantify over or construct.
-/

/-- Observable failure outcomes of the embedded operations.  The first five
are the Python exceptions the source can actually raise; `notComputed` and
`snapshotNotFound` are the defined failures named by the specification and
are produced nowhere in the source (no such exception class exists in the
repository). -/
inductive PyError where
  | typeError
  | attributeError
  | valueError
  | indexError
  | fileNotFoundError
  | notComputed
  | snapshotNotFound
deriving Repr, DecidableEq

/-- Time-indexed table of rows (timestamp, value): the model of a
`pandas.DataFrame` with a datetime index. -/
abbrev Tbl := List (Nat × Int)

/-- One pipeline node, mirroring `DataNode.__init__` (source lines 202-219).
`transformer` is the identity of the external transformer object (absent for
a root node), `parent`/`children` are arena indices, `data` the materialized
table, `newData` the `new_data` list of staged incremental batches,
`nProcessed` the `n_of_new_data_processed` counter, `brokers` the
`data_broker` subscriber list, and `sign` the `ticker.ticker_sign`. -/
structure DataNode where
  sign : Nat
  transformer : Option Nat := none
  parent : Option Nat := none
  endDate : Option Nat := none
  children : List Nat := []
  data : Option Tbl := none
  newData : List Tbl := []
  nProcessed : Nat := 0
  brokers : List Nat := []
  removeSession : Bool := false
deriving Repr, DecidableEq

/-- Structural node equality, mirroring `DataNode.__eq__` (source lines
278-283) with fuel for the recursion through `parent`.  The four conjuncts
follow the source order: `self.transformer == other.transformer`,
`self.parent == other.parent` (recursive; both absent compares true),
`self.ticker.ticker_sign == self.ticker.ticker_sign` — the source compares
the left node's sign WITH ITSELF, which is faithfully kept here as
`na.sign == na.sign` — and `self.end_date == other.end_date`.  Comparing a
root with a non-root on the parent conjunct raises in Python (None is handed
to `__eq__` which dereferences it); the optimizer only ever compares nodes of
one layer, so that branch is modelled as `false`. -/
def nodeEqF (g : List DataNode) : Nat → Nat → Nat → Bool
  | 0, _, _ => false
  | fuel+1, a, b =>
    match g[a]?, g[b]? with
    | some na, some nb =>
      (na.transformer == nb.transformer)
        && (match na.parent, nb.parent with
            | none, none => true
            | some pa, some pb => nodeEqF g fuel pa pb
            | _, _ => false)
        && (na.sign == na.sign)
        && (na.endDate == nb.endDate)
    | _, _ => false

/-- Two fresh root nodes for two different instruments: same (absent)
transformer, same (absent) parent, same (absent) end date, but ticker signs
0 and 1.  This is the failing input for the sign conjunct of `__eq__`. -/
def eqBugGraph : List DataNode := [{ sign := 0 }, { sign := 1 }]

/-- One pipeline facade, mirroring `DataTransformerBroker.__init__` (source
lines 16-36).  `final` is `final_datanode` (absent until `make_pipeline`),
`hasModel` records whether `self.model` is set, `modelState` the external
model object's serializable state, `dataName` the pipeline signature as the
list of step name identifiers joined by the source with `'__'`, and
`nextCached` is `next_cached_model_date`. -/
structure BrokerSt where
  sign : Nat
  final : Option Nat := none
  hasModel : Bool := false
  modelState : Int := 0
  dataName : List Nat := []
  endDate : Option Nat := none
  fitDate : Option Nat := none
  nextCached : Option Nat := none
  removeSession : Bool := false
deriving Repr, DecidableEq

/-- Whole-system state for one instrument: the node arena, the broker arena,
the class-level per-sign root pool `DataTransformerBroker.nodes[sign]`, the
per-sign `optimized[sign]` flag, and the states of the external transformer
objects indexed by transformer identity (mutated through
`save_model`/`load_model`). -/
structure Sys where
  nodes : List DataNode := []
  brokers : List BrokerSt := []
  pool : List Nat := []
  optimized : Bool := false
  tstates : List Int := []
deriving Repr, DecidableEq

/-- External collaborators as pure functions: `raw` is
`LocalCandlesUploader.upload_candles`, `newCandles` the
`LocalCandlesUploader.new_candles` batch list, `sessionFilter` the
`RemoveSession(...).fit_transform` pass, `fitTransform`/`transformInc` the
transformer capability keyed by transformer identity (`transformInc` is the
incremental `transform`), `transformBatches` a transformer applied to a batch
list, and `modelUpdate` the model capability's incremental update hook. -/
structure Env where
  raw : Tbl
  newCandles : List Tbl
  sessionFilter : Tbl → Tbl
  fitTransform : Nat → Tbl → Tbl
  transformInc : Nat → Tbl → Tbl
  transformBatches : Nat → List Tbl → Tbl
  modelUpdate : Int → Tbl → Int

/-- One pipeline step handed to `make_pipeline`: `model nm` is a step
exposing a prediction capability (`'predict' in dir(step)`), identified by
its name; `transf tid nm` is a plain transformer step with transformer
identity `tid` and name `nm`.  A model step that is not last is wrapped into
a node like a transformer, so it also carries a transformer identity. -/
inductive Step where
  | transf (tid : Nat) (nm : Nat)
  | model (tid : Nat) (nm : Nat)
deriving Repr, DecidableEq

/-- Registration of a new facade, mirroring `DataTransformerBroker.__init__`
(source lines 16-36): appends a broker with no pipeline yet and clears the
per-sign `optimized` flag (line 34).  Returns the new broker's index. -/
def newBroker (sys : Sys) (sign : Nat) (removeSession : Bool) : Sys × Nat :=
  ({ sys with
      brokers := sys.brokers ++ [{ sign := sign, removeSession := removeSession }],
      optimized := false },
   sys.brokers.length)

/-- Folding one step of `make_pipeline`'s loop body (source lines 43-59):
the state is (arena, current parent index, data name so far); a last model
step sets the broker's model instead of creating a node. -/
def pipelineStep (sign : Nat) (isLast : Bool)
    (st : List DataNode × Nat × List Nat × Bool) (step : Step) :
    List DataNode × Nat × List Nat × Bool :=
  let (g, parentIdx, nm, hasModel) := st
  match step, isLast with
  | .model _ _, true => (g, parentIdx, nm, true)
  | .transf tid snm, _ | .model tid snm, _ =>
    let newIdx := g.length
    let g := g ++ [{ sign := sign, transformer := some tid, parent := some parentIdx }]
    let g := match g[parentIdx]? with
      | some pnd => g.set parentIdx { pnd with children := pnd.children ++ [newIdx] }
      | none => g
    (g, newIdx, nm ++ [snm], hasModel)

/-- Pipeline construction, mirroring `DataTransformerBroker.make_pipeline`
(source lines 38-65): creates a root node, appends it to the per-sign pool,
sets the broker's `end_date`, creates one child node per non-model step in
order and accumulates the pipeline signature, classifies the last step as the
model when it has a prediction capability, records the terminal node as
`final_datanode`, subscribes the broker to it, and clears the per-sign
`optimized` flag. -/
def makePipeline (sys : Sys) (bid : Nat) (steps : List Step) (endDate : Nat) : Sys :=
  match sys.brokers[bid]? with
  | none => sys
  | some bk =>
    let rootIdx := sys.nodes.length
    let g := sys.nodes ++ [{ sign := bk.sign, removeSession := bk.removeSession }]
    let n := steps.length
    let fold := (List.range n).zip steps |>.foldl
      (fun st (p : Nat × Step) => pipelineStep bk.sign (p.1 == n - 1) st p.2)
      (g, rootIdx, [], false)
    let (g, finalIdx, nm, hasModel) := fold
    let g := match g[finalIdx]? with
      | some fnd => g.set finalIdx { fnd with brokers := fnd.brokers ++ [bid] }
      | none => g
    { sys with
      nodes := g,
      pool := sys.pool ++ [rootIdx],
      brokers := sys.brokers.set bid
        { bk with endDate := some endDate, final := some finalIdx,
                  hasModel := hasModel, dataName := nm },
      optimized := false }

/-- Destructive merge of duplicate node `dup` into survivor `keep`, mirroring
the body of the `if same_node == node:` branch of `_optimize` (source lines
180-190): the survivor inherits the duplicate's materialized data when it has
none itself, each of the duplicate's children is re-parented onto the
survivor and appended to its child list, and every facade subscribed to the
duplicate has its `final_datanode` redirected to the survivor and is appended
to the survivor's subscriber list.  The duplicate's entry stays in the arena
(Python keeps the object alive) but is dropped from the layer list by the
caller. -/
def mergeInto (sys : Sys) (keep dup : Nat) : Sys :=
  match sys.nodes[keep]?, sys.nodes[dup]? with
  | some kn, some dn =>
    let kn1 := match kn.data, dn.data with
      | none, some d => { kn with data := some d }
      | _, _ => kn
    let g := dn.children.foldl
      (fun g c =>
        let g := match g[c]? with
          | some cn => g.set c { cn with parent := some keep }
          | none => g
        match g[keep]? with
        | some kn2 => g.set keep { kn2 with children := kn2.children ++ [c] }
        | none => g)
      (sys.nodes.set keep kn1)
    let bs := dn.brokers.foldl
      (fun bs b =>
        match bs[b]? with
        | some bk => bs.set b { bk with final := some keep }
        | none => bs)
      sys.brokers
    let g := match g[keep]? with
      | some kn3 => g.set keep { kn3 with brokers := kn3.brokers ++ dn.brokers }
      | none => g
    { sys with nodes := g, brokers := bs }
  | _, _ => sys

/-- Inner pair scan of `_optimize` (source lines 178-194) for one survivor
`n`: walks the elements after `n` in the layer, merging every element that
compares structurally equal to `n` (the source's `same_node == node` test,
left operand the candidate) and keeping the rest.  The source's in-place
`del parent_nodes[idx + 1 + j]` together with its `idx -= 1` / `j -= 1`
adjustments deletes exactly the matched element each time (the deletion index
compensates for the number of earlier deletions), so the net effect is this
filter-with-side-effects. -/
def scanMerge (eqFuel : Nat) : Sys → Nat → List Nat → Sys × List Nat
  | sys, _, [] => (sys, [])
  | sys, n, m :: rest =>
    if nodeEqF sys.nodes eqFuel m n then
      scanMerge eqFuel (mergeInto sys n m) n rest
    else
      let (s, kept) := scanMerge eqFuel sys n rest
      (s, m :: kept)

/-- One layer of `_optimize`'s breadth-first walk (source lines 175-194):
visits surviving layer members left to right; for each one first snapshots
its current child list into the next layer's worklist (the source's
`children_nodes.extend(node.children)` runs BEFORE the pair scan, so children
re-parented onto the survivor by a merge are NOT added to the next layer) and
then runs the pair scan on the members after it.  Returns the final state,
the layer's survivors in order, and the accumulated next-layer worklist.
The fuel bounds the number of visits; callers pass the layer length. -/
def layerLoop (eqFuel : Nat) : Nat → Sys → List Nat → List Nat → List Nat →
    Sys × List Nat × List Nat
  | _, sys, [], surv, acc => (sys, surv, acc)
  | 0, sys, l, surv, acc => (sys, surv ++ l, acc)
  | fuel+1, sys, nid :: rest, surv, acc =>
    let acc := acc ++ (match sys.nodes[nid]? with | some nd => nd.children | none => [])
    let (sys1, kept) := scanMerge eqFuel sys nid rest
    layerLoop eqFuel fuel sys1 kept (surv ++ [nid]) acc

/-- The `while parent_nodes:` loop of `_optimize` (source lines 174-197) for
the layers after the root layer; `layerFuel` bounds the layer count (the
graphs built by `make_pipeline` have depth below any fuel the theorems use). -/
def optimizeLayers (eqFuel : Nat) : Nat → Sys → List Nat → Sys
  | 0, sys, _ => sys
  | _+1, sys, [] => sys
  | fuel+1, sys, layer =>
    let (sys1, _, next) := layerLoop eqFuel layer.length sys layer [] []
    optimizeLayers eqFuel fuel sys1 next

/-- The optimizer pass `DataTransformerBroker._optimize` (source lines
167-199): a no-op when the per-sign `optimized` flag is set; otherwise runs
the layered merge starting from the per-sign root pool (whose in-place
deletions shrink the class-level pool list itself, hence `pool := surv`), and
finally sets the flag. -/
def optimizeRun (eqFuel layerFuel : Nat) (sys : Sys) : Sys :=
  if sys.optimized then sys
  else
    let (s1, surv, next) := layerLoop eqFuel sys.pool.length sys sys.pool [] []
    let s1 := { s1 with pool := surv }
    let s2 := optimizeLayers eqFuel layerFuel s1 next
    { s2 with optimized := true }

/-- Children of all frontier nodes, for the reachability closure. -/
def reachStep (g : List DataNode) (frontier : List Nat) : List Nat :=
  frontier.foldl
    (fun acc i => acc ++ (match g[i]? with | some nd => nd.children | none => [])) []

/-- Nodes reachable from `frontier` by following child lists for at most `k`
steps; with `k` at least the graph depth this is everything reachable from
the root-level pool. -/
def reachN (g : List DataNode) : Nat → List Nat → List Nat
  | 0, frontier => frontier
  | k+1, frontier => frontier ++ reachN g k (reachStep g frontier)

/-- Two facades for the same instrument (sign 7), each registered and built
with the identical pipeline `[transformer 0, model]` sharing the same step
objects — the smallest duplicate-pipeline scenario of the claim. -/
def c2sys : Sys :=
  let s := (newBroker {} 7 false).1
  let s := makePipeline s 0 [.transf 0 10, .model 1 11] 100
  let s := (newBroker s 7 false).1
  makePipeline s 1 [.transf 0 10, .model 1 11] 100

/-- The state of the duplicate-pipeline scenario after the optimizer pass. -/
def c2opt : Sys := optimizeRun 4 4 c2sys

/-- Conditional `end_date` assignment opening `DataNode.compute` (source
lines 222-223): `if self.end_date is None: self.end_date = end_date`.
Returns the updated arena together with the node's current value. -/
def setEndDateIfNone (g : List DataNode) (nid : Nat) (nd : DataNode) (d : Nat) :
    List DataNode × DataNode :=
  match nd.endDate with
  | none => (g.set nid { nd with endDate := some d }, { nd with endDate := some d })
  | some _ => (g, nd)

/-- Lazy materialization `DataNode.compute` (source lines 221-241).  A node
with a parent first ensures the parent holds data (recursing only when
`self.parent.data is None`), then applies `transformer.fit_transform` to the
parent's data only when its own `data` is unset; a root node loads the raw
candles truncated to `end_date` and optionally session-filters them, again
only when `data` is unset.  The second returned component logs the index of
every node whose transform ran or whose raw data was loaded during the call.
Fuel bounds the parent recursion; `none` means fuel exhaustion or a dangling
reference, neither of which occurs on the graphs built by `make_pipeline`.
`nodeComputeFinish` is the part of the call after the parent is dealt with:
the re-read of `self`/`self.parent` and the guarded
`self.data = self.transformer.fit_transform(self.parent.data)` of source
lines 229-230. -/
def nodeComputeFinish (env : Env) (pid nid : Nat) :
    List DataNode × List Nat → Option (List DataNode × List Nat)
  | (g2, lg) =>
    match g2[nid]? with
    | none => none
    | some nd2 =>
      match nd2.data with
      | some _ => some (g2, lg)
      | none =>
        match nd2.transformer, (g2[pid]?).bind (fun pd => pd.data) with
        | some tid, some pdata =>
          some (g2.set nid { nd2 with data := some (env.fitTransform tid pdata) },
                lg ++ [nid])
        | _, _ => none

def nodeCompute (env : Env) : Nat → List DataNode → Nat → Nat →
    Option (List DataNode × List Nat)
  | 0, _, _, _ => none
  | fuel+1, g, nid, endDate =>
    match g[nid]? with
    | none => none
    | some nd =>
      let p := setEndDateIfNone g nid nd endDate
      match nd.parent with
      | none =>
        match nd.data with
        | some _ => some (p.1, [])
        | none =>
          let raw0 := env.raw.filter (fun r => decide (r.1 ≤ endDate))
          let raw1 := if nd.removeSession then env.sessionFilter raw0 else raw0
          some (p.1.set nid { p.2 with data := some raw1 }, [nid])
      | some pid =>
        let pres := match p.1[pid]? with
          | none => none
          | some pd =>
            match pd.data with
            | none => nodeCompute env fuel p.1 pid endDate
            | some _ => some (p.1, [])
        pres.bind (nodeComputeFinish env pid nid)

/-- Facade computation `DataTransformerBroker.compute` (source lines 67-74)
with an explicit `end_date` argument: runs `_optimize`, computes the chain at
`final_datanode`, and returns the leaf's materialized `data` (plus the
invocation log of the call).  `none` models fuel exhaustion or an unregistered
facade / absent pipeline. -/
def brokerCompute (env : Env) (eqFuel layerFuel fuel : Nat) (sys : Sys) (bid : Nat)
    (endDate : Nat) : Option (Sys × Option Tbl × List Nat) :=
  let s1 := optimizeRun eqFuel layerFuel sys
  match s1.brokers[bid]? with
  | none => none
  | some bk =>
    match bk.final with
    | none => none
    | some fid =>
      match nodeCompute env fuel s1.nodes fid endDate with
      | none => none
      | some (g2, lg) =>
        some ({ s1 with nodes := g2 }, (g2[fid]?).bind (fun nd => nd.data), lg)

/-- A node is fully materialized: it holds data and an end date, and its
parent (when it has one) holds data.  This is exactly the situation after a
successful `compute` in which every guard of a second `compute` call is
skipped. -/
def computedAt (g : List DataNode) (nid : Nat) : Prop :=
  ∃ nd, g[nid]? = some nd ∧ nd.data.isSome ∧ nd.endDate.isSome ∧
    ∀ pid, nd.parent = some pid → ∃ pd, g[pid]? = some pd ∧ pd.data.isSome

/-- Arena evolution produced by `compute`: every entry survives with the same
parent and transformer, and materialization (`data`, `end_date` being set) is
never undone. -/
def preserves (g g2 : List DataNode) : Prop :=
  ∀ (i : Nat) (nd : DataNode), g[i]? = some nd → ∃ nd2 : DataNode, g2[i]? = some nd2 ∧
    nd2.parent = nd.parent ∧ nd2.transformer = nd.transformer ∧
    (nd.data.isSome → nd2.data.isSome) ∧ (nd.endDate.isSome → nd2.endDate.isSome)

/-- Incremental update `DataNode.update` (source lines 243-261), returning
the mutated arena and the call's outcome.  The source first assigns
`self.end_date = new_date`.  A node WITH a parent then evaluates
`self.parent.update()` (line 256) — the required `new_date` argument is
missing, so the call raises `TypeError` there.  A ROOT node advances
`n_of_new_data_processed` by `len(new_candles) - n_of_new_data_processed`
(hence to exactly `len(new_candles)`, also when the Python difference is
negative), takes the not-yet-consumed batches `new_candles[-num:]` when `num`
is positive, and then evaluates `self.transformer.transform(...)` (line 258)
— a root built by `make_pipeline` has `transformer = None`, so this raises
`AttributeError`.  Mutations made before a raise stay visible, as attribute
mutation does in Python. -/
def nodeUpdate (env : Env) (g : List DataNode) (nid : Nat) (newDate : Nat) :
    List DataNode × Except PyError Tbl :=
  match g[nid]? with
  | none => (g, .error .typeError)
  | some nd =>
    match nd.parent with
    | some _ => (g.set nid { nd with endDate := some newDate }, .error .typeError)
    | none =>
      let len := env.newCandles.length
      let batches := if nd.nProcessed < len then env.newCandles.drop nd.nProcessed else []
      let nd1 := { nd with endDate := some newDate, nProcessed := len }
      let g1 := g.set nid nd1
      match nd.transformer with
      | none => (g1, .error .attributeError)
      | some tid =>
        let newTbl := env.transformBatches tid batches
        (g1.set nid { nd1 with newData := nd1.newData ++ [newTbl] }, .ok newTbl)

/-- Two-phase commit `DataNode.cache_new_data` (source lines 263-266):
`self.data = pd.concat([self.data] + self.new_data)` followed by resetting
the pending state.  `pd.concat` silently drops `None` members, so when
`data` was never set the call concatenates just the staged batches — raising
a generic `ValueError` ("All objects passed were None") only when `new_data`
is empty too, and otherwise silently committing the staged batches as the
node's data.  There is no `NotComputed` check anywhere in the source. -/
def cacheNewData (g : List DataNode) (nid : Nat) : List DataNode × Option PyError :=
  match g[nid]? with
  | none => (g, some .typeError)
  | some nd =>
    match nd.data with
    | none =>
      match nd.newData with
      | [] => (g, some .valueError)
      | b :: bs =>
        let nd1 := { nd with data := some ((b :: bs).foldl (· ++ ·) []), nProcessed := 0, newData := [] }
        (g.set nid nd1, none)
    | some d =>
      let nd1 := { nd with data := some (d ++ nd.newData.foldl (· ++ ·) []), nProcessed := 0, newData := [] }
      (g.set nid nd1, none)

/-- Facade-level update `DataTransformerBroker.update` (source lines
159-162): delegates to the leaf node's `update`, feeds the increment to the
model's incremental hook, then advances the facade's `end_date`.  Errors from
the leaf propagate before the model or `end_date` is touched. -/
def brokerUpdate (env : Env) (sys : Sys) (bid : Nat) (newDate : Nat) :
    Sys × Option PyError :=
  match sys.brokers[bid]? with
  | none => (sys, some .typeError)
  | some bk =>
    match bk.final with
    | none => (sys, some .attributeError)
    | some fid =>
      let (g, r) := nodeUpdate env sys.nodes fid newDate
      let sys1 := { sys with nodes := g }
      match r with
      | .error e => (sys1, some e)
      | .ok newTbl =>
        if bk.hasModel then
          let bk1 := { bk with modelState := env.modelUpdate bk.modelState newTbl, endDate := some newDate }
          ({ sys1 with brokers := sys1.brokers.set bid bk1 }, none)
        else (sys1, some .attributeError)

/-- Facade-level flush `DataTransformerBroker.cache_new_data` (source lines
164-165): delegates to the leaf node. -/
def brokerCacheNewData (sys : Sys) (bid : Nat) : Sys × Option PyError :=
  match sys.brokers[bid]? with
  | none => (sys, some .typeError)
  | some bk =>
    match bk.final with
    | none => (sys, some .attributeError)
    | some fid =>
      let (g, e) := cacheNewData sys.nodes fid
      ({ sys with nodes := g }, e)

/-- The model of `datetime.max.replace(tzinfo=timezone.utc)` at second
precision (9999-12-31 23:59:59 as epoch seconds), assigned by `load_model`
when no snapshot later than the selected one exists. -/
def datetimeMax : Nat := 253402300799

/-- The snapshot-selection loop of `load_model` (source lines 116-132) over
the directory listing in order, with the filename timestamps already parsed:
keeps updating `latest_model` and `self.fit_date` while the entry's timestamp
is at or before the facade's `end_date`; at the first later entry records it
as `next_cached_model_date` and breaks; when the loop completes without a
break (including an empty listing) the `for`-`else` arm sets
`next_cached_model_date = datetime.max`.  Returns
(`latest_model`, `fit_date`, `next_cached_model_date`). -/
def scanSnapshots (endDate : Nat) : List (Nat × List Int) → Option (Nat × List Int) →
    Option Nat → Option (Nat × List Int) × Option Nat × Option Nat
  | [], latest, fd => (latest, fd, some datetimeMax)
  | (t, c) :: rest, latest, fd =>
    if t ≤ endDate then scanSnapshots endDate rest (some (t, c)) (some t)
    else (latest, fd, some t)

/-- Leaf-to-root state collection `DataNode.save_model` (source lines
268-271): each non-root node appends its transformer's serialized state and
recurses into its parent; the root appends nothing and stops.  Returned here
as the produced list (the source appends into a caller-owned list). -/
def nodeSaveModel : Nat → List DataNode → List Int → Nat → Option (List Int)
  | 0, _, _, _ => none
  | fuel+1, g, ts, nid =>
    match g[nid]? with
    | none => none
    | some nd =>
      match nd.parent with
      | none => some []
      | some pid =>
        match nd.transformer with
        | none => none
        | some tid => (nodeSaveModel fuel g ts pid).map (fun rest => ts.getD tid 0 :: rest)

/-- Leaf-to-root state restoration `DataNode.load_model` (source lines
273-276): each non-root node loads the list's head into its transformer and
recurses into its parent with the tail; an exhausted list raises `IndexError`
(`data_list[0]`).  Returns the updated transformer-state arena. -/
def nodeLoadModel : Nat → List DataNode → List Int → Nat → List Int → Option (List Int)
  | 0, _, _, _, _ => none
  | fuel+1, g, ts, nid, lst =>
    match g[nid]? with
    | none => none
    | some nd =>
      match nd.parent with
      | none => some ts
      | some pid =>
        match nd.transformer with
        | none => none
        | some tid =>
          match lst with
          | [] => none
          | s :: rest => nodeLoadModel fuel g (ts.set tid s) pid rest

/-- Snapshot persistence `DataTransformerBroker.save_model` (source lines
84-106): fails with `ValueError` when no model is set; otherwise serializes
`[model-state] ++ transformer-states(leaf-to-root)` and writes it to the
facade's snapshot directory (modelled as the listing `fs`) under the
`fit_date` timestamp.  A `None` fit date would raise (`None.strftime`). -/
def saveModel (fuel : Nat) (sys : Sys) (bid : Nat) (fs : List (Nat × List Int)) :
    List (Nat × List Int) × Option PyError :=
  match sys.brokers[bid]? with
  | none => (fs, some .typeError)
  | some bk =>
    if bk.hasModel = false then (fs, some .valueError)
    else
      match bk.fitDate with
      | none => (fs, some .attributeError)
      | some fd =>
        match bk.final with
        | none => (fs, some .attributeError)
        | some fid =>
          match nodeSaveModel fuel sys.nodes sys.tstates fid with
          | none => (fs, some .attributeError)
          | some sl => (fs ++ [(fd, bk.modelState :: sl)], none)

/-- Snapshot loading `DataTransformerBroker.load_model` (source lines
108-149).  `fs = none` models a missing snapshot directory (`os.listdir`
raises `FileNotFoundError`); otherwise `fs` is the listing in directory
order with parsed timestamps.  The scan selects the latest entry at or
before the facade's `end_date` and records the horizon; with no selected
entry `joblib.load(None)` raises `TypeError`.  The model state is restored
first; then (for `compute_data=False`) the transformer states are restored
leaf-to-root, or (for `compute_data=True`) the chain is recomputed up to the
fit date; in either branch, an `end_date` still ahead of the loaded fit date
triggers an immediate incremental `update` to catch up.  Accessing
`self.model.name` with no model set raises `AttributeError` before any
listing happens.  Mutations made before a raise stay visible. -/
def loadModel (env : Env) (eqFuel layerFuel fuel : Nat)
    (fs : Option (List (Nat × List Int))) (computeData : Bool)
    (sys : Sys) (bid : Nat) : Sys × Option PyError :=
  match sys.brokers[bid]? with
  | none => (sys, some .typeError)
  | some bk =>
    if bk.hasModel = false then (sys, some .attributeError)
    else
      match fs with
      | none => (sys, some .fileNotFoundError)
      | some files =>
        match bk.endDate with
        | none => (sys, some .typeError)
        | some endD =>
          let scan := scanSnapshots endD files none bk.fitDate
          let bk1 := { bk with fitDate := scan.2.1, nextCached := scan.2.2 }
          let sys1 := { sys with brokers := sys.brokers.set bid bk1 }
          match scan.1 with
          | none => (sys1, some .typeError)
          | some (_, content) =>
            match content with
            | [] => (sys1, some .indexError)
            | mstate :: rest =>
              let bk2 := { bk1 with modelState := mstate }
              let sys2 := { sys1 with brokers := sys1.brokers.set bid bk2 }
              match scan.2.1 with
              | none => (sys2, some .typeError)
              | some fdv =>
                match computeData with
                | false =>
                  match bk2.final with
                  | none => (sys2, some .attributeError)
                  | some fid =>
                    match nodeLoadModel fuel sys2.nodes sys2.tstates fid rest with
                    | none => (sys2, some .indexError)
                    | some ts2 =>
                      let sys3 := { sys2 with tstates := ts2 }
                      if fdv < endD then brokerUpdate env sys3 bid endD
                      else (sys3, none)
                | true =>
                  match brokerCompute env eqFuel layerFuel fuel sys2 bid fdv with
                  | none => (sys2, some .typeError)
                  | some (s, _, _) =>
                    if fdv < endD then brokerUpdate env s bid endD
                    else (s, none)

/-- Hot-swap gate `DataTransformerBroker.reload_model` (source lines
151-157): when `cur_date >= next_cached_model_date` it reloads via
`load_model()` (default `compute_data=False`) and reports `True`; otherwise
it touches nothing and reports `False`.  A `None` horizon would raise in the
comparison. -/
def reloadModel (env : Env) (eqFuel layerFuel fuel : Nat)
    (fs : Option (List (Nat × List Int))) (sys : Sys) (bid : Nat) (curDate : Nat) :
    Sys × Except PyError Bool :=
  match sys.brokers[bid]? with
  | none => (sys, .error .typeError)
  | some bk =>
    match bk.nextCached with
    | none => (sys, .error .typeError)
    | some n =>
      if n ≤ curDate then
        match loadModel env eqFuel layerFuel fuel fs false sys bid with
        | (s, none) => (s, .ok true)
        | (s, some e) => (s, .error e)
      else (sys, .ok false)

/-- Environment with two raw candle rows at timestamps 1 and 2, identity
transformers, and no arrived incremental batches. -/
def envA : Env :=
  { raw := [(1, 10), (2, 20)], newCandles := [],
    sessionFilter := fun t => t,
    fitTransform := fun _ t => t,
    transformInc := fun _ t => t,
    transformBatches := fun _ _ => [],
    modelUpdate := fun s _ => s }

/-- One facade with the pipeline `[transformer 0, model]`: arena node 0 is
the root, node 1 the transformer leaf. -/
def c1sys : Sys :=
  let s := (newBroker {} 7 false).1
  makePipeline s 0 [.transf 0 10, .model 1 11] 2

/-- The state of `c1sys` after a batch `compute` at date T1 = 1. -/
def c1sysT1 : Sys := ((brokerCompute envA 4 4 4 c1sys 0 1).map (fun r => r.1)).getD {}

/-- A facade with a fitted model (state 9), a two-node chain whose leaf uses
transformer 0 (state 42), fit and end date both 3 — the round-trip input. -/
def c8sys : Sys :=
  { nodes := [{ sign := 7 }, { sign := 7, transformer := some 0, parent := some 0 }],
    brokers := [{ sign := 7, final := some 1, hasModel := true, modelState := 9,
                  endDate := some 3, fitDate := some 3 }],
    tstates := [42] }

/-- A facade ready to load: model set, `end_date` 5, root-only chain. -/
def c5sys : Sys :=
  { nodes := [{ sign := 7 }],
    brokers := [{ sign := 7, final := some 0, hasModel := true, endDate := some 5 }] }

/-- A facade whose loaded snapshot has horizon (`next_cached_model_date`) 5. -/
def c9sys : Sys :=
  { nodes := [{ sign := 7 }],
    brokers := [{ sign := 7, final := some 0, hasModel := true, endDate := some 5,
                  nextCached := some 5 }] }

/-- A never-computed node (`data` unset) that nevertheless holds one staged
incremental batch in `new_data`: the input on which `cache_new_data`
silently succeeds instead of failing. -/
def c6gStaged : List DataNode := [{ sign := 7, newData := [[(5, 1)]] }]

theorem list_set_getD (l : List Int) : ∀ i : Nat, l.set i (l.getD i 0) = l := by
  induction l with
  | nil => intro i; rfl
  | cons a t ih =>
    intro i
    cases i with
    | zero => simp
    | succ n => simpa using ih n

theorem lt_length_of_get?_some {α : Type} {g : List α} {i : Nat} {nd : α}
    (h : g[i]? = some nd) : i < g.length :=
  (List.getElem?_eq_some_iff.mp h).1

theorem preserves_refl (g : List DataNode) : preserves g g := by
  intro i nd h
  exact ⟨nd, h, rfl, rfl, id, id⟩

theorem preserves_trans {g1 g2 g3 : List DataNode}
    (h12 : preserves g1 g2) (h23 : preserves g2 g3) : preserves g1 g3 := by
  intro i nd h
  obtain ⟨nd2, h2, hp2, ht2, hd2, he2⟩ := h12 i nd h
  obtain ⟨nd3, h3, hp3, ht3, hd3, he3⟩ := h23 i nd2 h2
  exact ⟨nd3, h3, hp3.trans hp2, ht3.trans ht2, fun x => hd3 (hd2 x), fun x => he3 (he2 x)⟩

theorem preserves_set {g : List DataNode} {i : Nat} {nd nd2 : DataNode}
    (h : g[i]? = some nd) (hp : nd2.parent = nd.parent)
    (ht : nd2.transformer = nd.transformer)
    (hd : nd.data.isSome → nd2.data.isSome)
    (he : nd.endDate.isSome → nd2.endDate.isSome) :
    preserves g (g.set i nd2) := by
  intro j ndj hj
  by_cases hij : i = j
  · subst hij
    have hlen : i < g.length := lt_length_of_get?_some h
    have hj2 : ndj = nd := by
      rw [h] at hj
      exact (Option.some_inj.mp hj).symm
    subst hj2
    exact ⟨nd2, by simp [List.getElem?_set_self hlen], hp, ht, hd, he⟩
  · exact ⟨ndj, by rw [List.getElem?_set_ne hij]; exact hj, rfl, rfl, id, id⟩

theorem optimizeRun_optimized (e l : Nat) (s : Sys) :
    (optimizeRun e l s).optimized = true := by
  rw [optimizeRun]
  by_cases h : s.optimized
  · simp [h]
  · simp [h]

theorem optimizeRun_id (e l : Nat) {s : Sys} (h : s.optimized = true) :
    optimizeRun e l s = s := by
  rw [optimizeRun, h]
  simp

theorem setEndDate_spec (g : List DataNode) (nid : Nat) (nd : DataNode) (d : Nat)
    (h : g[nid]? = some nd) :
    preserves g (setEndDateIfNone g nid nd d).1 ∧
    (setEndDateIfNone g nid nd d).1[nid]? = some (setEndDateIfNone g nid nd d).2 ∧
    (setEndDateIfNone g nid nd d).2.parent = nd.parent ∧
    (setEndDateIfNone g nid nd d).2.transformer = nd.transformer ∧
    (setEndDateIfNone g nid nd d).2.endDate.isSome ∧
    (setEndDateIfNone g nid nd d).2.data = nd.data := by
  cases hE : nd.endDate with
  | none =>
    have h1 : setEndDateIfNone g nid nd d =
        (g.set nid { nd with endDate := some d }, { nd with endDate := some d }) := by
      simp [setEndDateIfNone, hE]
    rw [h1]
    exact ⟨preserves_set h rfl rfl (fun x => x) (fun _ => rfl),
      List.getElem?_set_self (lt_length_of_get?_some h), rfl, rfl, rfl, rfl⟩
  | some e =>
    have h1 : setEndDateIfNone g nid nd d = (g, nd) := by
      simp [setEndDateIfNone, hE]
    rw [h1]
    exact ⟨preserves_refl g, h, rfl, rfl, by rw [hE]; rfl, rfl⟩

theorem finish_preserves {env : Env} {pid nid : Nat} {gm g2 : List DataNode}
    {lg0 lg : List Nat} (h : nodeComputeFinish env pid nid (gm, lg0) = some (g2, lg)) :
    preserves gm g2 := by
  rw [nodeComputeFinish] at h
  cases hnd2 : gm[nid]? with
  | none => simp only [hnd2] at h; exact Option.noConfusion h
  | some nd2 =>
    simp only [hnd2] at h
    cases hD2 : nd2.data with
    | some dv =>
      simp only [hD2, Option.some_inj, Prod.mk.injEq] at h
      rw [← h.1]
      exact preserves_refl gm
    | none =>
      simp only [hD2] at h
      cases hT : nd2.transformer with
      | none => simp only [hT] at h; exact Option.noConfusion h
      | some tid =>
        simp only [hT] at h
        cases hB : (gm[pid]?).bind (fun pd => pd.data) with
        | none => simp only [hB] at h; exact Option.noConfusion h
        | some pdata =>
          simp only [hB, Option.some_inj, Prod.mk.injEq] at h
          rw [← h.1]
          exact preserves_set hnd2 rfl hT.symm (fun x => rfl) id

theorem finish_computedAt {env : Env} {pid nid : Nat} {gm g2 : List DataNode}
    {lg0 lg : List Nat} (h : nodeComputeFinish env pid nid (gm, lg0) = some (g2, lg))
    (hself : ∃ nd2, gm[nid]? = some nd2 ∧ nd2.endDate.isSome ∧ nd2.parent = some pid)
    (hpid : ∃ pd, gm[pid]? = some pd ∧ pd.data.isSome) :
    computedAt g2 nid := by
  obtain ⟨nd2, hnd2, hend2, hpar2⟩ := hself
  rw [nodeComputeFinish] at h
  simp only [hnd2] at h
  cases hD2 : nd2.data with
  | some dv =>
    simp only [hD2, Option.some_inj, Prod.mk.injEq] at h
    rw [← h.1]
    refine ⟨nd2, hnd2, by rw [hD2]; rfl, hend2, ?_⟩
    intro pid2 hp2
    rw [hpar2] at hp2
    obtain ⟨pd, hpd, hpdd⟩ := hpid
    exact ⟨pd, (Option.some_inj.mp hp2) ▸ hpd, hpdd⟩
  | none =>
    simp only [hD2] at h
    cases hT : nd2.transformer with
    | none => simp only [hT] at h; exact Option.noConfusion h
    | some tid =>
      simp only [hT] at h
      cases hB : (gm[pid]?).bind (fun pd => pd.data) with
      | none => simp only [hB] at h; exact Option.noConfusion h
      | some pdata =>
        simp only [hB, Option.some_inj, Prod.mk.injEq] at h
        rw [← h.1]
        have hlen : nid < gm.length := lt_length_of_get?_some hnd2
        refine ⟨_, List.getElem?_set_self hlen, rfl, hend2, ?_⟩
        intro pid2 hp2
        rw [hpar2] at hp2
        rw [← Option.some_inj.mp hp2]
        by_cases hpn : nid = pid
        · subst hpn
          refine ⟨_, List.getElem?_set_self hlen, ?_⟩
          rfl
        · obtain ⟨pd, hpd, hpdd⟩ := Option.bind_eq_some.mp hB
          refine ⟨pd, ?_, by rw [hpdd]; rfl⟩
          rw [List.getElem?_set_ne hpn]
          exact hpd

theorem nodeCompute_preserves (env : Env) :
    ∀ (fuel : Nat) (g : List DataNode) (nid d : Nat) (g2 : List DataNode) (lg : List Nat),
      nodeCompute env fuel g nid d = some (g2, lg) → preserves g g2 := by
  intro fuel
  induction fuel with
  | zero => intro g nid d g2 lg h; simp [nodeCompute] at h
  | succ f ih =>
    intro g nid d g2 lg h
    rw [nodeCompute] at h
    cases hnd : g[nid]? with
    | none => simp only [hnd] at h; exact Option.noConfusion h
    | some nd =>
      simp only [hnd] at h
      obtain ⟨hpres, hget, hpar, htr, hend, hdata⟩ := setEndDate_spec g nid nd d hnd
      cases hP : nd.parent with
      | none =>
        simp only [hP] at h
        cases hD : nd.data with
        | some dv =>
          simp only [hD, Option.some_inj, Prod.mk.injEq] at h
          rw [← h.1]
          exact hpres
        | none =>
          simp only [hD, Option.some_inj, Prod.mk.injEq] at h
          rw [← h.1]
          exact preserves_trans hpres (preserves_set hget rfl rfl (fun x => rfl) id)
      | some pid =>
        simp only [hP] at h
        cases hpd : (setEndDateIfNone g nid nd d).1[pid]? with
        | none =>
          simp only [hpd, Option.none_bind] at h
          exact Option.noConfusion h
        | some pd =>
          simp only [hpd] at h
          cases hpdd : pd.data with
          | some pdv =>
            simp only [hpdd, Option.some_bind] at h
            exact preserves_trans hpres (finish_preserves h)
          | none =>
            simp only [hpdd] at h
            cases hrec : nodeCompute env f (setEndDateIfNone g nid nd d).1 pid d with
            | none =>
              simp only [hrec, Option.none_bind] at h
              exact Option.noConfusion h
            | some pr =>
              obtain ⟨gmid, lg0⟩ := pr
              simp only [hrec, Option.some_bind] at h
              exact preserves_trans hpres
                (preserves_trans (ih _ pid d gmid lg0 hrec) (finish_preserves h))

theorem nodeCompute_computedAt (env : Env) :
    ∀ (fuel : Nat) (g : List DataNode) (nid d : Nat) (g2 : List DataNode) (lg : List Nat),
      nodeCompute env fuel g nid d = some (g2, lg) → computedAt g2 nid := by
  intro fuel
  induction fuel with
  | zero => intro g nid d g2 lg h; simp [nodeCompute] at h
  | succ f ih =>
    intro g nid d g2 lg h
    rw [nodeCompute] at h
    cases hnd : g[nid]? with
    | none => simp only [hnd] at h; exact Option.noConfusion h
    | some nd =>
      simp only [hnd] at h
      obtain ⟨hpres, hget, hpar, htr, hend, hdata⟩ := setEndDate_spec g nid nd d hnd
      cases hP : nd.parent with
      | none =>
        simp only [hP] at h
        cases hD : nd.data with
        | some dv =>
          simp only [hD, Option.some_inj, Prod.mk.injEq] at h
          rw [← h.1]
          refine ⟨_, hget, ?_, hend, ?_⟩
          · rw [hdata, hD]; rfl
          · intro pid hpid2
            have hpid3 : (setEndDateIfNone g nid nd d).2.parent = some pid := hpid2
            rw [hpar, hP] at hpid3
            exact Option.noConfusion hpid3
        | none =>
          simp only [hD, Option.some_inj, Prod.mk.injEq] at h
          rw [← h.1]
          have hlen : nid < (setEndDateIfNone g nid nd d).1.length :=
            lt_length_of_get?_some hget
          refine ⟨_, List.getElem?_set_self hlen, rfl, hend, ?_⟩
          intro pid hpid2
          have hpid3 : (setEndDateIfNone g nid nd d).2.parent = some pid := hpid2
          rw [hpar, hP] at hpid3
          exact Option.noConfusion hpid3
      | some pid =>
        simp only [hP] at h
        cases hpd : (setEndDateIfNone g nid nd d).1[pid]? with
        | none => simp only [hpd, Option.none_bind] at h; exact Option.noConfusion h
        | some pd =>
          simp only [hpd] at h
          cases hpdd : pd.data with
          | some pdv =>
            simp only [hpdd, Option.some_bind] at h
            refine finish_computedAt h ⟨_, hget, hend, ?_⟩ ⟨pd, hpd, ?_⟩
            · rw [hpar, hP]
            · rw [hpdd]; rfl
          | none =>
            simp only [hpdd] at h
            cases hrec : nodeCompute env f (setEndDateIfNone g nid nd d).1 pid d with
            | none => simp only [hrec, Option.none_bind] at h; exact Option.noConfusion h
            | some pr =>
              obtain ⟨gmid, lg0⟩ := pr
              simp only [hrec, Option.some_bind] at h
              have hcp : computedAt gmid pid := ih _ pid d gmid lg0 hrec
              have hmid : preserves (setEndDateIfNone g nid nd d).1 gmid :=
                nodeCompute_preserves env f _ pid d gmid lg0 hrec
              obtain ⟨nd2x, hnd2x, hpx, htx, hdx, hex⟩ := hmid nid _ hget
              obtain ⟨ndp, hndp, hpdata, hpend, hpclause⟩ := hcp
              refine finish_computedAt h ⟨nd2x, hnd2x, hex hend, ?_⟩ ⟨ndp, hndp, hpdata⟩
              rw [hpx, hpar, hP]

theorem nodeCompute_noop (env : Env) (f : Nat) (g : List DataNode) (nid d : Nat)
    (h : computedAt g nid) : nodeCompute env (f+1) g nid d = some (g, []) := by
  obtain ⟨nd, hnd, hdata, hend, hpar⟩ := h
  obtain ⟨e, hE⟩ := Option.isSome_iff_exists.mp hend
  obtain ⟨dv, hD⟩ := Option.isSome_iff_exists.mp hdata
  have hp1 : setEndDateIfNone g nid nd d = (g, nd) := by simp [setEndDateIfNone, hE]
  rw [nodeCompute]
  simp only [hnd]
  cases hP : nd.parent with
  | none => simp only [hP, hp1, hD]
  | some pid =>
    obtain ⟨pd, hpd, hpdd⟩ := hpar pid hP
    obtain ⟨pdv, hPD⟩ := Option.isSome_iff_exists.mp hpdd
    simp only [hP, hp1, hpd, hPD, Option.some_bind]
    rw [nodeComputeFinish]
    simp only [hnd, hD]

theorem brokerCompute_spec {env : Env} {e l f : Nat} {sys : Sys} {bid d : Nat}
    {s1 : Sys} {t : Option Tbl} {lg : List Nat}
    (h : brokerCompute env e l f sys bid d = some (s1, t, lg)) :
    s1.optimized = true ∧ 1 ≤ f ∧
    ∃ bk fid, s1.brokers[bid]? = some bk ∧ bk.final = some fid ∧
      computedAt s1.nodes fid ∧ t = (s1.nodes[fid]?).bind (fun nd => nd.data) := by
  rw [brokerCompute] at h
  cases hbk : (optimizeRun e l sys).brokers[bid]? with
  | none => simp only [hbk] at h; exact Option.noConfusion h
  | some bk =>
    simp only [hbk] at h
    cases hf : bk.final with
    | none => simp only [hf] at h; exact Option.noConfusion h
    | some fid =>
      simp only [hf] at h
      cases hnc : nodeCompute env f (optimizeRun e l sys).nodes fid d with
      | none => simp only [hnc] at h; exact Option.noConfusion h
      | some pr =>
        obtain ⟨g2, lg0⟩ := pr
        simp only [hnc, Option.some_inj, Prod.mk.injEq] at h
        obtain ⟨hs1, ht, hlg⟩ := h
        refine ⟨?_, ?_, bk, fid, ?_, hf, ?_, ?_⟩
        · rw [← hs1]; exact optimizeRun_optimized e l sys
        · cases f with
          | zero => rw [nodeCompute] at hnc; exact Option.noConfusion hnc
          | succ n => omega
        · rw [← hs1]; exact hbk
        · rw [← hs1]; exact nodeCompute_computedAt env f _ fid d g2 lg0 hnc
        · rw [← hs1]; exact ht.symm

theorem brokerCompute_noop (env : Env) (e l f : Nat) (sys : Sys) (bid d : Nat)
    (bk : BrokerSt) (fid : Nat)
    (ho : sys.optimized = true) (hbk : sys.brokers[bid]? = some bk)
    (hf : bk.final = some fid) (hc : computedAt sys.nodes fid) :
    brokerCompute env e l (f+1) sys bid d =
      some (sys, (sys.nodes[fid]?).bind (fun nd => nd.data), []) := by
  rw [brokerCompute, optimizeRun_id e l ho]
  simp only [hbk, hf, nodeCompute_noop env f sys.nodes fid d hc]

/-- C7: for every facade and date `d`, `compute(d)` twice with the same `d`
yields identical materialized data and the second call re-invokes no
transformer's `fit_transform` and reloads no raw data (empty invocation log),
leaving the state exactly as after the first call: once a node's `data` is
set, `compute` never recomputes it.  Stated operationally: running
`brokerCompute` again on the result of a successful `brokerCompute` with the
same date returns the same state and the same table with an empty log (and a
failed first call yields nothing to re-run). -/
theorem c7_compute_idempotent (env : Env) (eqF layerF fuel : Nat) (sys : Sys)
    (bid d : Nat) :
    (brokerCompute env eqF layerF fuel sys bid d).bind
        (fun r => brokerCompute env eqF layerF fuel r.1 bid d)
      = (brokerCompute env eqF layerF fuel sys bid d).map
          (fun r => (r.1, r.2.1, ([] : List Nat))) := by
  cases h : brokerCompute env eqF layerF fuel sys bid d with
  | none => rfl
  | some r =>
    obtain ⟨s1, t, lg⟩ := r
    obtain ⟨ho, hf1, bk, fid, hbk, hfin, hc, ht⟩ := brokerCompute_spec h
    obtain ⟨f0, rfl⟩ : ∃ f0, fuel = f0 + 1 := ⟨fuel - 1, by omega⟩
    simp only [Option.some_bind, Option.map_some']
    rw [ht]
    exact brokerCompute_noop env eqF layerF f0 s1 bid d bk fid ho hbk hfin hc

/-- C10: for every facade whose chain was materialized by a first
`compute(d1)`, a subsequent `compute(d2)` with ANY other end date — later
ones included — leaves every node's `data` and `end_date` unchanged (the
whole state is returned unmodified), performs no transform or raw load
(empty log), and returns the table previously materialized for `d1`: the new
`end_date` argument is silently ignored once `data` is set. -/
theorem c10_second_end_date_ignored (env : Env) (eqF layerF fuel : Nat) (sys : Sys)
    (bid d1 d2 : Nat) :
    (brokerCompute env eqF layerF fuel sys bid d1).bind
        (fun r => brokerCompute env eqF layerF fuel r.1 bid d2)
      = (brokerCompute env eqF layerF fuel sys bid d1).map
          (fun r => (r.1, r.2.1, ([] : List Nat))) := by
  cases h : brokerCompute env eqF layerF fuel sys bid d1 with
  | none => rfl
  | some r =>
    obtain ⟨s1, t, lg⟩ := r
    obtain ⟨ho, hf1, bk, fid, hbk, hfin, hc, ht⟩ := brokerCompute_spec h
    obtain ⟨f0, rfl⟩ : ∃ f0, fuel = f0 + 1 := ⟨fuel - 1, by omega⟩
    simp only [Option.some_bind, Option.map_some']
    rw [ht]
    exact brokerCompute_noop env eqF layerF f0 s1 bid d2 bk fid ho hbk hfin hc

/-- C3: the claim states that `a == b` holds only when the two nodes'
instrument signs agree, so the two nodes of `eqBugGraph` — identical except
for their signs 0 and 1 — must compare unequal.  The source instead compares
the left node's sign with itself (`self.ticker.ticker_sign ==
self.ticker.ticker_sign`, line 281), a tautology, so the comparison returns
`true` for these two nodes of different instruments: the code contradicts the
claim's sign conjunct. -/
theorem c3_sign_conjunct_bug :
    nodeEqF eqBugGraph 2 0 1 = true ∧
    (eqBugGraph[0]?.map DataNode.sign ≠ eqBugGraph[1]?.map DataNode.sign) := by
  constructor
  · rfl
  · decide

/-- C2: the claim states that after `_optimize` no two distinct nodes
reachable from the instrument's root-level pool are structurally equal.  For
two identical two-step pipelines the pass merges the duplicate root (node 2)
into node 0 and re-parents its child (node 3) onto node 0 — but `_optimize`
snapshots `node.children` into the next layer's worklist before the merge
appends the re-parented child, so node 3 is never visited again: after the
pass both node 1 and node 3 are reachable from the pool, distinct, and
structurally equal, contradicting the claimed postcondition. -/
theorem c2_optimizer_misses_merged_children :
    c2opt.optimized = true ∧
    1 ∈ reachN c2opt.nodes 3 c2opt.pool ∧
    3 ∈ reachN c2opt.nodes 3 c2opt.pool ∧
    (1 : Nat) ≠ 3 ∧
    nodeEqF c2opt.nodes 4 1 3 = true := by
  decide

/-- C1: the claim states `compute(T2)` equals `compute(T1)` followed by
`update` through `T2` and a flush.  On the code the batch side works (here
`compute(2)` materializes both raw rows, `compute(1)` only the first), but
the incremental side can never run: `update` on the leaf (node 1, which has a
parent) calls `self.parent.update()` without the required `new_date` argument
and raises `TypeError`, and even directly on the root (node 0) it applies
`self.transformer.transform` with `transformer = None` and raises
`AttributeError` — so after `compute(1)` no sequence of `update` calls can
bring the chain to the `compute(2)` state. -/
theorem c1_incremental_path_crashes :
    (brokerCompute envA 4 4 4 c1sys 0 2).map (fun r => r.2.1) =
      some (some [(1, 10), (2, 20)]) ∧
    (brokerCompute envA 4 4 4 c1sys 0 1).map (fun r => r.2.1) =
      some (some [(1, 10)]) ∧
    c1sysT1 = ((brokerCompute envA 4 4 4 c1sys 0 1).map (fun r => r.1)).getD {} ∧
    (nodeUpdate envA c1sysT1.nodes 1 2).2 = .error .typeError ∧
    (nodeUpdate envA c1sysT1.nodes 0 2).2 = .error .attributeError :=
  ⟨rfl, rfl, rfl, rfl, rfl⟩

/-- C6 (counterexample): the claim states that `update`/`cache_new_data` on a
never-computed node fail with the defined `NotComputed` failure.  On the
never-computed leaf (node 1 of `c1sys`, `data` unset, nothing staged)
`cache_new_data` fails with a plain `ValueError` (`pd.concat` drops the
`None` data member and finds all passed objects were `None`) and `update`
fails with a plain `TypeError` (`self.parent.update()` missing its required
argument) — neither is the claimed `NotComputed`; and on a never-computed
node with a staged batch (`c6gStaged`), `cache_new_data` does not fail at
all. -/
theorem c6_counterexample :
    c1sys.nodes[1]?.map DataNode.data = some none ∧
    (cacheNewData c1sys.nodes 1).2 = some PyError.valueError ∧
    ¬ (cacheNewData c1sys.nodes 1).2 = some PyError.notComputed ∧
    (nodeUpdate envA c1sys.nodes 1 2).2 = Except.error PyError.typeError ∧
    ¬ (nodeUpdate envA c1sys.nodes 1 2).2 = Except.error PyError.notComputed ∧
    c6gStaged[0]?.map DataNode.data = some none ∧
    (cacheNewData c6gStaged 0).2 = none :=
  ⟨rfl, rfl, by decide, rfl,
   fun h => absurd (Except.error.inj h) (by decide), rfl, rfl⟩

/-- C6 (amended): no `NotComputed` check or failure exists.  `update` does
not inspect `data` at all and raises a generic `TypeError` on any node with
a parent (the recursive call misses its required argument) or a generic
`AttributeError` on a transformerless root (`None.transform`).
`cache_new_data` on a node whose `data` was never set raises a generic
`ValueError` (`pd.concat` silently drops the `None` member and then finds
all passed objects were `None`) when no batches are staged, and does not
fail at all when batches are staged — it silently commits exactly the
staged batches as the node's data. -/
theorem c6_no_notComputed_failure (env : Env) (g : List DataNode) (nid : Nat)
    (nd : DataNode) (d : Nat) (h : g[nid]? = some nd) (hdata : nd.data = none) :
    (nd.newData = [] → (cacheNewData g nid).2 = some PyError.valueError) ∧
    (∀ (b : Tbl) (bs : List Tbl), nd.newData = b :: bs →
      (cacheNewData g nid).2 = none ∧
      ((cacheNewData g nid).1[nid]?).map DataNode.data
        = some (some ((b :: bs).foldl (· ++ ·) []))) ∧
    (∀ pid, nd.parent = some pid →
      (nodeUpdate env g nid d).2 = Except.error PyError.typeError) ∧
    (nd.parent = none → nd.transformer = none →
      (nodeUpdate env g nid d).2 = Except.error PyError.attributeError) := by
  have hlen : nid < g.length := lt_length_of_get?_some h
  refine ⟨?_, ?_, ?_, ?_⟩
  · intro hnew; rw [cacheNewData]; simp only [h, hdata, hnew]
  · intro b bs hnew
    constructor
    · rw [cacheNewData]; simp only [h, hdata, hnew]
    · rw [cacheNewData]
      simp only [h, hdata, hnew]
      rw [List.getElem?_set_self hlen]
      rfl
  · intro pid hp; rw [nodeUpdate]; simp only [h, hp]
  · intro hp ht; rw [nodeUpdate]; simp only [h, hp, ht]

/-- Witness for C6 (amended): the never-computed leaf of `c1sys` (nothing
staged: `ValueError` on flush, `TypeError` on update) and the never-computed
node of `c6gStaged` (one staged batch: flush silently commits it). -/
theorem c6_no_notComputed_failure_witness :
    c1sys.nodes[1]?.map DataNode.data = some none ∧
    (cacheNewData c1sys.nodes 1).2 = some PyError.valueError ∧
    (nodeUpdate envA c1sys.nodes 1 2).2 = Except.error PyError.typeError ∧
    (cacheNewData c6gStaged 0).2 = none ∧
    ((cacheNewData c6gStaged 0).1[0]?).map DataNode.data = some (some [(5, 1)]) :=
  ⟨rfl,
   (c6_no_notComputed_failure envA c1sys.nodes 1 _ 2 rfl rfl).1 rfl,
   (c6_no_notComputed_failure envA c1sys.nodes 1 _ 2 rfl rfl).2.2.1 0 rfl,
   ((c6_no_notComputed_failure envA c6gStaged 0 _ 2 rfl rfl).2.1 [(5, 1)] [] rfl).1,
   ((c6_no_notComputed_failure envA c6gStaged 0 _ 2 rfl rfl).2.1 [(5, 1)] [] rfl).2⟩

/-- C5 (counterexample): the claim states that loading from an empty snapshot
directory fails with the defined `SnapshotNotFound` failure.  With an empty
listing for the ready-to-load facade `c5sys`, `load_model` instead fails with
a plain `TypeError` (`joblib.load(None)`), not `SnapshotNotFound`. -/
theorem c5_counterexample :
    (loadModel envA 1 1 1 (some []) false c5sys 0).2 = some PyError.typeError ∧
    ¬ (loadModel envA 1 1 1 (some []) false c5sys 0).2 = some PyError.snapshotNotFound :=
  ⟨rfl, by decide⟩

/-- C5 (amended): when the snapshot directory is missing, or holds no
snapshot at or before the facade's `end_date`, `load_model` does fail and
does not select a later snapshot or default the state — the broker's
`fit_date` and model state are untouched — but the failure is generic: a
`TypeError` from `joblib.load(None)` (no entry selected, including the empty
listing) or a `FileNotFoundError` from `os.listdir` (missing directory),
never a `SnapshotNotFound`, which does not exist in the code. -/
theorem c5_generic_failure (env : Env) (e l f : Nat) (sys : Sys) (bid : Nat)
    (bk : BrokerSt) (E : Nat) (files : List (Nat × List Int))
    (hbk : sys.brokers[bid]? = some bk) (hm : bk.hasModel = true)
    (he : bk.endDate = some E) (hlate : ∀ p ∈ files, E < p.1) :
    (loadModel env e l f (some files) false sys bid).2 = some PyError.typeError ∧
    ¬ (loadModel env e l f (some files) false sys bid).2 = some PyError.snapshotNotFound ∧
    (((loadModel env e l f (some files) false sys bid).1.brokers[bid]?).map
        (fun b => (b.fitDate, b.modelState)) = some (bk.fitDate, bk.modelState)) ∧
    loadModel env e l f none false sys bid = (sys, some PyError.fileNotFoundError) := by
  have hscan : ∃ nx, scanSnapshots E files none bk.fitDate = (none, bk.fitDate, nx) := by
    cases files with
    | nil => exact ⟨some datetimeMax, rfl⟩
    | cons p rest =>
      obtain ⟨t, c⟩ := p
      have hp : E < t := hlate (t, c) (List.mem_cons_self _ _)
      refine ⟨some t, ?_⟩
      rw [scanSnapshots]
      simp [Nat.not_le.mpr hp]
  obtain ⟨nx, hscan⟩ := hscan
  have hres : loadModel env e l f (some files) false sys bid =
      ({ sys with brokers :=
          sys.brokers.set bid { bk with fitDate := bk.fitDate, nextCached := nx } },
       some PyError.typeError) := by
    rw [loadModel]
    simp only [hbk, hm, he, hscan, Bool.true_eq_false, if_false]
  refine ⟨?_, ?_, ?_, ?_⟩
  · rw [hres]
  · rw [hres]
    intro h2
    exact absurd (Option.some_inj.mp h2) (by decide)
  · rw [hres]
    have hlen : bid < sys.brokers.length := lt_length_of_get?_some hbk
    simp only []
    rw [List.getElem?_set_self (by simpa using hlen)]
    rfl
  · rw [loadModel]
    simp only [hbk, hm, Bool.true_eq_false, if_false]

/-- Witness for C5 (amended): facade `c5sys` (`end_date` 5) with one snapshot
at timestamp 9 only. -/
theorem c5_generic_failure_witness :
    (5:Nat) < 9 ∧
    (loadModel envA 1 1 1 (some [(9, [1])]) false c5sys 0).2 = some PyError.typeError ∧
    loadModel envA 1 1 1 none false c5sys 0 = (c5sys, some PyError.fileNotFoundError) :=
  ⟨by decide,
   (c5_generic_failure envA 1 1 1 c5sys 0 _ 5 [(9, [1])] rfl rfl rfl (by decide)).1,
   (c5_generic_failure envA 1 1 1 c5sys 0 _ 5 [(9, [1])] rfl rfl rfl (by decide)).2.2.2⟩

/-- C9: `reload_model(d)` hot-swaps (runs `load_model()` on the current
listing and reports `True`, or propagates its failure) exactly when
`d ≥ next_cached_model_date`; when `d` is strictly earlier it mutates
nothing, reads nothing from the snapshot store, and reports `False` — the
result `(sys, ok false)` is the untouched input state, for every listing
`fs`. -/
theorem c9_hot_swap_gate (env : Env) (e l f : Nat) (fs : Option (List (Nat × List Int)))
    (sys : Sys) (bid : Nat) (bk : BrokerSt) (n d : Nat)
    (hbk : sys.brokers[bid]? = some bk) (hn : bk.nextCached = some n) :
    (d < n → reloadModel env e l f fs sys bid d = (sys, Except.ok false)) ∧
    (n ≤ d → reloadModel env e l f fs sys bid d =
      (match loadModel env e l f fs false sys bid with
       | (s, none) => (s, Except.ok true)
       | (s, some er) => (s, Except.error er))) := by
  constructor
  · intro hd
    rw [reloadModel]
    simp only [hbk, hn]
    rw [if_neg (by omega)]
  · intro hd
    rw [reloadModel]
    simp only [hbk, hn]
    rw [if_pos hd]

/-- Witness for C9: facade `c9sys` with horizon 5; at date 4 the reload is a
strict no-op, at date 5 it runs `load_model` (here failing on the empty
listing, with the state mutations of the attempted load visible). -/
theorem c9_hot_swap_gate_witness :
    (4:Nat) < 5 ∧ (5:Nat) ≤ 5 ∧
    reloadModel envA 1 1 1 (some []) c9sys 0 4 = (c9sys, Except.ok false) ∧
    reloadModel envA 1 1 1 (some []) c9sys 0 5 =
      (match loadModel envA 1 1 1 (some []) false c9sys 0 with
       | (s, none) => (s, Except.ok true)
       | (s, some er) => (s, Except.error er)) :=
  ⟨by decide, by decide,
   (c9_hot_swap_gate envA 1 1 1 (some []) c9sys 0 _ 5 4 rfl rfl).1 (by decide),
   (c9_hot_swap_gate envA 1 1 1 (some []) c9sys 0 _ 5 5 rfl rfl).2 (by decide)⟩

theorem brokerUpdate_keeps_fit_next (env : Env) (sys : Sys) (bid : Nat) (d : Nat) :
    ((brokerUpdate env sys bid d).1.brokers[bid]?).map (fun b => (b.fitDate, b.nextCached))
      = (sys.brokers[bid]?).map (fun b => (b.fitDate, b.nextCached)) := by
  rw [brokerUpdate]
  cases hbk : sys.brokers[bid]? with
  | none => simp only [hbk]
  | some bk =>
    simp only [hbk]
    cases hf : bk.final with
    | none => simp only [hf]; rw [hbk]
    | some fid =>
      simp only [hf]
      cases hup : nodeUpdate env sys.nodes fid d with
      | mk g r =>
        cases r with
        | error e => simp only [hup]; rw [hbk]
        | ok newTbl =>
          simp only [hup]
          cases hm : bk.hasModel with
          | false => simp only [hm, Bool.false_eq_true, if_false]; rw [hbk]
          | true =>
            simp only [hm, if_true]
            have hlen : bid < sys.brokers.length := lt_length_of_get?_some hbk
            rw [List.getElem?_set_self (by simpa using hlen)]
            rfl

theorem loadModel_fit_next (env : Env) (e l f : Nat) (files : List (Nat × List Int))
    (sys : Sys) (bid : Nat) (bk : BrokerSt) (E : Nat)
    (hbk : sys.brokers[bid]? = some bk) (hm : bk.hasModel = true)
    (he : bk.endDate = some E) :
    ((loadModel env e l f (some files) false sys bid).1.brokers[bid]?).map
        (fun b => (b.fitDate, b.nextCached))
      = some ((scanSnapshots E files none bk.fitDate).2.1,
              (scanSnapshots E files none bk.fitDate).2.2) := by
  have hlen : bid < sys.brokers.length := lt_length_of_get?_some hbk
  rw [loadModel]
  simp only [hbk, hm, he, Bool.true_eq_false, if_false]
  cases hl : (scanSnapshots E files none bk.fitDate).1 with
  | none =>
    simp [hl, List.getElem?_set_self, hlen]
  | some latest =>
    obtain ⟨lt0, content⟩ := latest
    simp only [hl]
    cases content with
    | nil => simp [List.getElem?_set_self, hlen]
    | cons mstate rest =>
      simp only []
      cases hfd : (scanSnapshots E files none bk.fitDate).2.1 with
      | none => simp [hfd, List.getElem?_set_self, hlen]
      | some fdv =>
        simp only [hfd]
        cases hfin : bk.final with
        | none => simp [hfin, hfd, List.getElem?_set_self, hlen]
        | some fid =>
          simp only [hfin]
          cases hnl : nodeLoadModel f sys.nodes sys.tstates fid rest with
          | none => simp [hnl, hfd, List.getElem?_set_self, hlen]
          | some ts2 =>
            simp only [hnl]
            by_cases hcmp : fdv < E
            · rw [if_pos hcmp, brokerUpdate_keeps_fit_next]
              simp [hfd, List.getElem?_set_self, hlen]
            · rw [if_neg hcmp]
              simp [hfd, List.getElem?_set_self, hlen]

/-- C4: with snapshots stored at `T1 < T2 < T3` (listing in chronological
order, as the filename format guarantees), `load_model` with
`end_date = T2` — and likewise any `end_date` strictly between `T2` and `T3`
— selects exactly the `T2` snapshot (`fit_date = T2`) and records `T3` as
`next_cached_model_date`; and when the selected snapshot is the last one
(`end_date ≥ T3`), the horizon is set to the maximal timestamp
`datetime.max`. -/
theorem c4_snapshot_selection (env : Env) (e l f : Nat) (sys : Sys) (bid : Nat)
    (bk : BrokerSt) (E T1 T2 T3 : Nat) (c1 c2 c3 : List Int)
    (hbk : sys.brokers[bid]? = some bk) (hm : bk.hasModel = true)
    (he : bk.endDate = some E) (h12 : T1 < T2) (h23 : T2 < T3) :
    (T2 ≤ E → E < T3 →
      ((loadModel env e l f (some [(T1, c1), (T2, c2), (T3, c3)]) false sys bid).1.brokers[bid]?).map
          (fun b => (b.fitDate, b.nextCached)) = some (some T2, some T3)) ∧
    (T3 ≤ E →
      ((loadModel env e l f (some [(T1, c1), (T2, c2), (T3, c3)]) false sys bid).1.brokers[bid]?).map
          (fun b => (b.fitDate, b.nextCached)) = some (some T3, some datetimeMax)) := by
  constructor
  · intro hT2 hT3
    have h1 : T1 ≤ E := by omega
    have h3 : ¬ (T3 ≤ E) := by omega
    have hscan : scanSnapshots E [(T1, c1), (T2, c2), (T3, c3)] none bk.fitDate
        = (some (T2, c2), some T2, some T3) := by
      simp [scanSnapshots, h1, hT2, h3]
    rw [loadModel_fit_next env e l f _ sys bid bk E hbk hm he, hscan]
  · intro hT3
    have h1 : T1 ≤ E := by omega
    have h2 : T2 ≤ E := by omega
    have hscan : scanSnapshots E [(T1, c1), (T2, c2), (T3, c3)] none bk.fitDate
        = (some (T3, c3), some T3, some datetimeMax) := by
      simp [scanSnapshots, h1, h2, hT3]
    rw [loadModel_fit_next env e l f _ sys bid bk E hbk hm he, hscan]

/-- Witness for C4: facade `c5sys` (`end_date` 5) over snapshots at
1 < 3 < 9: the 3-snapshot is selected and 9 becomes the horizon. -/
theorem c4_snapshot_selection_witness :
    (3:Nat) ≤ 5 ∧ (5:Nat) < 9 ∧
    ((loadModel envA 1 1 1 (some [(1, [0]), (3, [0]), (9, [0])]) false c5sys 0).1.brokers[0]?).map
        (fun b => (b.fitDate, b.nextCached)) = some (some 3, some 9) :=
  ⟨by decide, by decide,
   (c4_snapshot_selection envA 1 1 1 c5sys 0 _ 5 1 3 9 [0] [0] [0]
      rfl rfl rfl (by decide) (by decide)).1 (by decide) (by decide)⟩

theorem nodeSaveLoad (fuel : Nat) (g : List DataNode) :
    ∀ (ts : List Int) (nid : Nat) (sl : List Int),
      nodeSaveModel fuel g ts nid = some sl → nodeLoadModel fuel g ts nid sl = some ts := by
  induction fuel with
  | zero => intro ts nid sl h; simp [nodeSaveModel] at h
  | succ f ih =>
    intro ts nid sl h
    rw [nodeSaveModel] at h
    rw [nodeLoadModel]
    cases hnd : g[nid]? with
    | none => simp only [hnd] at h; exact Option.noConfusion h
    | some nd =>
      simp only [hnd] at h ⊢
      cases hp : nd.parent with
      | none => simp only [hp]
      | some pid =>
        simp only [hp] at h ⊢
        cases ht : nd.transformer with
        | none => simp only [ht] at h; exact Option.noConfusion h
        | some tid =>
          simp only [ht] at h ⊢
          cases hrec : nodeSaveModel f g ts pid with
          | none => simp only [hrec, Option.map_none'] at h; exact Option.noConfusion h
          | some rest =>
            simp only [hrec, Option.map_some'] at h
            have hsl := (Option.some_inj.mp h).symm
            subst hsl
            have hgoal : nodeLoadModel f g (ts.set tid (ts.getD tid 0)) pid rest = some ts := by
              rw [list_set_getD]
              exact ih ts pid rest hrec
            exact hgoal

/-- C8: for a fitted facade, `save_model` followed by `load_model` at
`end_date` equal to the fit date restores the model state and every
transformer state along the chain bit-identical (the transformer-state store
is returned unchanged and the broker's model state equals its pre-save
value), with the single state list written leaf-to-root by `save_model` and
consumed in the same leaf-to-root order by `load_model`, whose successful
consumption of exactly that list is the content of `nodeSaveLoad`. -/
theorem c8_save_load_roundtrip (env : Env) (e l f : Nat) (sys : Sys) (bid : Nat)
    (bk : BrokerSt) (fd fid : Nat) (sl : List Int)
    (hbk : sys.brokers[bid]? = some bk) (hm : bk.hasModel = true)
    (hfd : bk.fitDate = some fd) (he : bk.endDate = some fd) (hfin : bk.final = some fid)
    (hsl : nodeSaveModel f sys.nodes sys.tstates fid = some sl) :
    saveModel f sys bid [] = ([(fd, bk.modelState :: sl)], none) ∧
    (loadModel env e l f (some [(fd, bk.modelState :: sl)]) false sys bid).2 = none ∧
    (loadModel env e l f (some [(fd, bk.modelState :: sl)]) false sys bid).1.tstates
      = sys.tstates ∧
    ((loadModel env e l f (some [(fd, bk.modelState :: sl)]) false sys bid).1.brokers[bid]?).map
        (fun b => (b.modelState, b.fitDate)) = some (bk.modelState, some fd) := by
  have hlen : bid < sys.brokers.length := lt_length_of_get?_some hbk
  have hsave : saveModel f sys bid [] = ([(fd, bk.modelState :: sl)], none) := by
    rw [saveModel]
    simp [hbk, hm, hfd, hfin, hsl]
  have hscan : scanSnapshots fd [(fd, bk.modelState :: sl)] none bk.fitDate
      = (some (fd, bk.modelState :: sl), some fd, some datetimeMax) := by
    simp [scanSnapshots]
  have hload : nodeLoadModel f sys.nodes sys.tstates fid sl = some sys.tstates :=
    nodeSaveLoad f sys.nodes sys.tstates fid sl hsl
  refine ⟨hsave, ?_, ?_, ?_⟩ <;>
  · rw [loadModel]
    simp only [hbk, hm, he, Bool.true_eq_false, if_false, hscan]
    simp [hfin, hload, List.getElem?_set_self, hlen]

/-- Witness for C8 at `c8sys`: leaf transformer state 42, model state 9,
fit date and end date 3; the snapshot written is `(3, [9, 42])` and loading
it back restores an unchanged state store. -/
theorem c8_save_load_roundtrip_witness :
    nodeSaveModel 4 c8sys.nodes c8sys.tstates 1 = some [42] ∧
    saveModel 4 c8sys 0 [] = ([(3, [9, 42])], none) ∧
    (loadModel envA 1 1 4 (some [(3, [9, 42])]) false c8sys 0).2 = none ∧
    (loadModel envA 1 1 4 (some [(3, [9, 42])]) false c8sys 0).1.tstates = c8sys.tstates :=
  ⟨rfl,
   (c8_save_load_roundtrip envA 1 1 4 c8sys 0 _ 3 1 [42] rfl rfl rfl rfl rfl rfl).1,
   (c8_save_load_roundtrip envA 1 1 4 c8sys 0 _ 3 1 [42] rfl rfl rfl rfl rfl rfl).2.1,
   (c8_save_load_roundtrip envA 1 1 4 c8sys 0 _ 3 1 [42] rfl rfl rfl rfl rfl rfl).2.2.1⟩
